import Mathlib

/-!
Verification of the load-board bid/lifecycle engine of app.py.

The embedding below models the four engine routes of the source file:
  place_bid     (src/app.py lines 572-591)
  accept_bid    (src/app.py lines 593-607)
  reject_bid    (src/app.py lines 609-620)
  update_status (src/app.py lines 622-633)
over a state consisting of the loads and bids tables. Fields irrelevant
to the engine logic (route text, dates, weight, notes, timestamps) are
omitted; the fields consulted or mutated by the four routes are kept
under their source names. SQL row ids produced by AUTOINCREMENT are
modelled by the nextBidId counter.
-/

namespace LoadBoard

/-- User roles, from the users.role CHECK constraint (app.py line 43). -/
inductive Role where
  | shipper
  | trucker
  | admin
deriving DecidableEq

/-- Load statuses, from the loads.status CHECK constraint (app.py line 67).
    The source string "open" is rendered open' since open is a Lean keyword. -/
inductive LoadStatus where
  | open'
  | assigned
  | in_transit
  | delivered
  | cancelled
deriving DecidableEq

/-- Bid statuses, from the bids.status CHECK constraint (app.py line 80). -/
inductive BidStatus where
  | pending
  | accepted
  | rejected
deriving DecidableEq

/-- A row of the loads table, restricted to the fields the engine reads or
    writes: id, shipper_id, status, trucker_id (the assigned bidder). -/
structure Load where
  id : Nat
  shipper_id : Nat
  status : LoadStatus
  trucker_id : Option Nat
deriving DecidableEq

/-- A row of the bids table: id, load_id, trucker_id, amount, message, status. -/
structure Bid where
  id : Nat
  load_id : Nat
  trucker_id : Nat
  amount : Rat
  message : Option String
  status : BidStatus
deriving DecidableEq

/-- The acting principal: the session's user_id and role. -/
structure Principal where
  id : Nat
  role : Role
deriving DecidableEq

/-- The mutable engine state: the loads and bids tables plus the next
    AUTOINCREMENT id for bids. -/
structure DB where
  loads : List Load
  bids : List Bid
  nextBidId : Nat
deriving DecidableEq

/-- Failure outcomes. notFound and forbidden model abort(404) and abort(403);
    badRequest models abort(400); invalidAmount and duplicatePendingBid model
    the two flash-and-return branches of place_bid. loadNotOpen and
    illegalTransition are the failures named by the spec; they are included so
    that claims about them can be stated (the source never produces them). -/
inductive EngineError where
  | notFound
  | forbidden
  | badRequest
  | invalidAmount
  | duplicatePendingBid
  | loadNotOpen
  | illegalTransition
deriving DecidableEq

/-- SELECT * FROM bids WHERE id=? (first matching row). -/
def lookupBid (db : DB) (bid_id : Nat) : Option Bid :=
  db.bids.find? (fun b => decide (b.id = bid_id))

/-- SELECT * FROM loads WHERE id=? (first matching row). -/
def lookupLoad (db : DB) (load_id : Nat) : Option Load :=
  db.loads.find? (fun l => decide (l.id = load_id))

/-- The per-bid effect of the two UPDATE statements of accept_bid
    (app.py lines 602-603): the chosen bid becomes accepted, every other bid
    of the same load becomes rejected, bids of other loads are untouched. -/
def resolveBid (bid_id load_id : Nat) (x : Bid) : Bid :=
  if x.id = bid_id then { x with status := BidStatus.accepted }
  else if x.load_id = load_id then { x with status := BidStatus.rejected }
  else x

/-- The per-load effect of the UPDATE statement of accept_bid (app.py
    line 604): the bid's load becomes assigned to the bid's trucker. -/
def assignTo (load_id trucker_id : Nat) (L : Load) : Load :=
  if L.id = load_id then
    { L with status := LoadStatus.assigned, trucker_id := some trucker_id }
  else L

/-- The per-bid effect of the UPDATE statement of reject_bid (app.py
    line 617): the chosen bid becomes rejected, nothing else changes. -/
def rejectOne (bid_id : Nat) (x : Bid) : Bid :=
  if x.id = bid_id then { x with status := BidStatus.rejected } else x

/-- The per-load effect of the UPDATE statement of update_status (app.py
    line 630): the chosen load's status is overwritten, nothing else changes
    (in particular trucker_id is untouched). -/
def setLoadStatus (load_id : Nat) (st : LoadStatus) (L : Load) : Load :=
  if L.id = load_id then { L with status := st } else L

/-- place_bid (app.py lines 572-591). The route is guarded by
    role_required("trucker"), which allows truckers and admins (app.py
    lines 130-139). It checks amount validity, then the absence of a pending
    bid by the same trucker on the same load, then inserts a pending bid.
    It never consults the loads table. -/
def place_bid (db : DB) (load_id : Nat) (p : Principal) (amount : Option Rat)
    (message : Option String) : Except EngineError DB :=
  if ¬ (p.role = Role.trucker ∨ p.role = Role.admin) then
    Except.error EngineError.forbidden
  else
    match amount with
    | none => Except.error EngineError.invalidAmount
    | some amt =>
      if amt ≤ 0 then Except.error EngineError.invalidAmount
      else if (db.bids.find? (fun b =>
          decide (b.load_id = load_id ∧ b.trucker_id = p.id ∧
            b.status = BidStatus.pending))).isSome then
        Except.error EngineError.duplicatePendingBid
      else
        Except.ok
          ⟨db.loads,
           db.bids ++ [⟨db.nextBidId, load_id, p.id, amt, message, BidStatus.pending⟩],
           db.nextBidId + 1⟩

/-- accept_bid (app.py lines 593-607). Looks up the bid joined with its load
    (missing bid or load yields 404), checks that the caller is the load's
    shipper or an admin (else 403), then unconditionally accepts the bid,
    rejects its siblings and assigns the load. The load's current status is
    never examined. -/
def accept_bid (db : DB) (bid_id : Nat) (p : Principal) : Except EngineError DB :=
  match lookupBid db bid_id with
  | none => Except.error EngineError.notFound
  | some b =>
    match lookupLoad db b.load_id with
    | none => Except.error EngineError.notFound
    | some l =>
      if p.id ≠ l.shipper_id ∧ p.role ≠ Role.admin then
        Except.error EngineError.forbidden
      else
        Except.ok
          ⟨db.loads.map (assignTo b.load_id b.trucker_id),
           db.bids.map (resolveBid bid_id b.load_id),
           db.nextBidId⟩

/-- reject_bid (app.py lines 609-620). Same lookup and authorization as
    accept_bid, then sets the single bid's status to rejected. The bid's
    current status is never examined. -/
def reject_bid (db : DB) (bid_id : Nat) (p : Principal) : Except EngineError DB :=
  match lookupBid db bid_id with
  | none => Except.error EngineError.notFound
  | some b =>
    match lookupLoad db b.load_id with
    | none => Except.error EngineError.notFound
    | some l =>
      if p.id ≠ l.shipper_id ∧ p.role ≠ Role.admin then
        Except.error EngineError.forbidden
      else
        Except.ok ⟨db.loads, db.bids.map (rejectOne bid_id), db.nextBidId⟩

/-- Parsing of the status URL segment of update_status against the five
    legal status strings (app.py line 625). -/
def LoadStatus.ofString? (s : String) : Option LoadStatus :=
  if s = "open" then some LoadStatus.open'
  else if s = "assigned" then some LoadStatus.assigned
  else if s = "in_transit" then some LoadStatus.in_transit
  else if s = "delivered" then some LoadStatus.delivered
  else if s = "cancelled" then some LoadStatus.cancelled
  else none

/-- update_status (app.py lines 622-633). Rejects a target outside the five
    status names with 400, looks up the load (404), checks authorization
    (403), then overwrites the load's status. The current status is never
    examined and trucker_id is never modified: there is no transition-edge
    validation of any kind. -/
def update_status (db : DB) (load_id : Nat) (p : Principal) (status : String) :
    Except EngineError DB :=
  match LoadStatus.ofString? status with
  | none => Except.error EngineError.badRequest
  | some st =>
    match lookupLoad db load_id with
    | none => Except.error EngineError.notFound
    | some l =>
      if p.id ≠ l.shipper_id ∧ p.role ≠ Role.admin then
        Except.error EngineError.forbidden
      else
        Except.ok ⟨db.loads.map (setLoadStatus load_id st), db.bids, db.nextBidId⟩

/-- One engine invocation, with its arguments. -/
inductive Op where
  | submit (load_id : Nat) (p : Principal) (amount : Option Rat) (message : Option String)
  | accept (bid_id : Nat) (p : Principal)
  | reject (bid_id : Nat) (p : Principal)
  | transition (load_id : Nat) (p : Principal) (status : String)

/-- Effect of one invocation on the state: on success the new state, on any
    failure the state is unchanged (every failing branch of the four routes
    returns before the first UPDATE or INSERT, so a failure commits nothing). -/
def applyOp (db : DB) (op : Op) : DB :=
  match op with
  | Op.submit load_id p amount message =>
    match place_bid db load_id p amount message with
    | Except.ok db' => db'
    | Except.error _ => db
  | Op.accept bid_id p =>
    match accept_bid db bid_id p with
    | Except.ok db' => db'
    | Except.error _ => db
  | Op.reject bid_id p =>
    match reject_bid db bid_id p with
    | Except.ok db' => db'
    | Except.error _ => db
  | Op.transition load_id p status =>
    match update_status db load_id p status with
    | Except.ok db' => db'
    | Except.error _ => db

/-- Effect of a sequence of engine invocations. -/
def runOps (db : DB) (ops : List Op) : DB :=
  ops.foldl applyOp db

/-- Whether an invocation is a direct status transition (update_status). -/
def Op.isTransition : Op → Bool
  | Op.transition _ _ _ => true
  | _ => false

/-- At most one pending bid per (load, trucker) pair: no two distinct
    positions of the bids table hold pending bids with the same pair. -/
def atMostOnePending (db : DB) : Prop :=
  db.bids.Pairwise (fun b1 b2 =>
    ¬(b1.load_id = b2.load_id ∧ b1.trucker_id = b2.trucker_id ∧
      b1.status = BidStatus.pending ∧ b2.status = BidStatus.pending))

/-- At most one accepted bid per load: no two distinct positions of the bids
    table hold accepted bids on the same load. -/
def acceptedUnique (db : DB) : Prop :=
  db.bids.Pairwise (fun b1 b2 =>
    ¬(b1.load_id = b2.load_id ∧ b1.status = BidStatus.accepted ∧
      b2.status = BidStatus.accepted))

/-- Every accepted bid's trucker is its load's assigned trucker. -/
def acceptedMatches (db : DB) : Prop :=
  ∀ l ∈ db.loads, ∀ b ∈ db.bids,
    b.load_id = l.id → b.status = BidStatus.accepted →
      l.trucker_id = some b.trucker_id

/-- The accepted-bid invariant of the spec (claim C7). -/
def acceptedInv (db : DB) : Prop :=
  acceptedUnique db ∧ acceptedMatches db

/-- The assignment invariant of the spec (claim C3): trucker_id is set iff
    the status is assigned, in_transit or delivered. -/
def assignInv (db : DB) : Prop :=
  ∀ l ∈ db.loads,
    (l.trucker_id ≠ none ↔
      (l.status = LoadStatus.assigned ∨ l.status = LoadStatus.in_transit ∨
       l.status = LoadStatus.delivered))

/-- Well-formedness guaranteed by the SQL schema: primary keys are unique
    and the AUTOINCREMENT counter is ahead of every existing bid id. -/
def WF (db : DB) : Prop :=
  (db.bids.map Bid.id).Nodup ∧ (db.loads.map Load.id).Nodup ∧
    ∀ b ∈ db.bids, b.id < db.nextBidId

instance (db : DB) : Decidable (atMostOnePending db) := by
  unfold atMostOnePending; infer_instance

instance (db : DB) : Decidable (acceptedUnique db) := by
  unfold acceptedUnique; infer_instance

instance (db : DB) : Decidable (acceptedMatches db) := by
  unfold acceptedMatches; infer_instance

instance (db : DB) : Decidable (acceptedInv db) := by
  unfold acceptedInv; infer_instance

instance (db : DB) : Decidable (assignInv db) := by
  unfold assignInv; infer_instance

instance (db : DB) : Decidable (WF db) := by
  unfold WF; infer_instance

/-! Basic facts about the per-row update functions. -/

theorem resolveBid_id (i lid : Nat) (x : Bid) : (resolveBid i lid x).id = x.id := by
  unfold resolveBid
  by_cases h1 : x.id = i
  · simp [h1]
  · by_cases h2 : x.load_id = lid <;> simp [h1, h2]

theorem resolveBid_load_id (i lid : Nat) (x : Bid) :
    (resolveBid i lid x).load_id = x.load_id := by
  unfold resolveBid
  by_cases h1 : x.id = i
  · simp [h1]
  · by_cases h2 : x.load_id = lid <;> simp [h1, h2]

theorem resolveBid_trucker_id (i lid : Nat) (x : Bid) :
    (resolveBid i lid x).trucker_id = x.trucker_id := by
  unfold resolveBid
  by_cases h1 : x.id = i
  · simp [h1]
  · by_cases h2 : x.load_id = lid <;> simp [h1, h2]

theorem resolveBid_of_id {i lid : Nat} {x : Bid} (h : x.id = i) :
    resolveBid i lid x = { x with status := BidStatus.accepted } := by
  unfold resolveBid; simp [h]

theorem resolveBid_of_load {i lid : Nat} {x : Bid} (h1 : x.id ≠ i)
    (h2 : x.load_id = lid) :
    resolveBid i lid x = { x with status := BidStatus.rejected } := by
  unfold resolveBid; simp [h1, h2]

theorem resolveBid_of_other {i lid : Nat} {x : Bid} (h1 : x.id ≠ i)
    (h2 : x.load_id ≠ lid) : resolveBid i lid x = x := by
  unfold resolveBid; simp [h1, h2]

theorem resolveBid_pending {i lid : Nat} {x : Bid}
    (h : (resolveBid i lid x).status = BidStatus.pending) : resolveBid i lid x = x := by
  unfold resolveBid at h ⊢
  by_cases h1 : x.id = i
  · simp [h1] at h
  · by_cases h2 : x.load_id = lid
    · simp [h1, h2] at h
    · simp [h1, h2]

theorem resolveBid_accepted {i lid : Nat} {x : Bid}
    (h : (resolveBid i lid x).status = BidStatus.accepted) :
    x.id = i ∨ (x.id ≠ i ∧ x.load_id ≠ lid ∧ x.status = BidStatus.accepted) := by
  by_cases h1 : x.id = i
  · exact Or.inl h1
  · by_cases h2 : x.load_id = lid
    · rw [resolveBid_of_load h1 h2] at h; simp at h
    · rw [resolveBid_of_other h1 h2] at h; exact Or.inr ⟨h1, h2, h⟩

theorem rejectOne_id (i : Nat) (x : Bid) : (rejectOne i x).id = x.id := by
  unfold rejectOne
  by_cases h1 : x.id = i <;> simp [h1]

theorem rejectOne_of_id {i : Nat} {x : Bid} (h : x.id = i) :
    rejectOne i x = { x with status := BidStatus.rejected } := by
  unfold rejectOne; simp [h]

theorem rejectOne_of_ne {i : Nat} {x : Bid} (h : x.id ≠ i) : rejectOne i x = x := by
  unfold rejectOne; simp [h]

theorem rejectOne_pending {i : Nat} {x : Bid}
    (h : (rejectOne i x).status = BidStatus.pending) : rejectOne i x = x := by
  unfold rejectOne at h ⊢
  by_cases h1 : x.id = i
  · simp [h1] at h
  · simp [h1]

theorem rejectOne_accepted {i : Nat} {x : Bid}
    (h : (rejectOne i x).status = BidStatus.accepted) : rejectOne i x = x := by
  unfold rejectOne at h ⊢
  by_cases h1 : x.id = i
  · simp [h1] at h
  · simp [h1]

theorem assignTo_id (lid t : Nat) (L : Load) : (assignTo lid t L).id = L.id := by
  unfold assignTo
  by_cases h1 : L.id = lid <;> simp [h1]

theorem assignTo_shipper_id (lid t : Nat) (L : Load) :
    (assignTo lid t L).shipper_id = L.shipper_id := by
  unfold assignTo
  by_cases h1 : L.id = lid <;> simp [h1]

theorem assignTo_of_eq {lid t : Nat} {L : Load} (h : L.id = lid) :
    assignTo lid t L =
      { L with status := LoadStatus.assigned, trucker_id := some t } := by
  unfold assignTo; simp [h]

theorem assignTo_of_ne {lid t : Nat} {L : Load} (h : L.id ≠ lid) :
    assignTo lid t L = L := by
  unfold assignTo; simp [h]

theorem setLoadStatus_id (lid : Nat) (st : LoadStatus) (L : Load) :
    (setLoadStatus lid st L).id = L.id := by
  unfold setLoadStatus
  by_cases h1 : L.id = lid <;> simp [h1]

theorem setLoadStatus_trucker_id (lid : Nat) (st : LoadStatus) (L : Load) :
    (setLoadStatus lid st L).trucker_id = L.trucker_id := by
  unfold setLoadStatus
  by_cases h1 : L.id = lid <;> simp [h1]

/-! Lookups, and lookups through an id-preserving table update. -/

theorem lookupBid_some {db : DB} {i : Nat} {b : Bid} (h : lookupBid db i = some b) :
    b ∈ db.bids ∧ b.id = i := by
  refine ⟨List.mem_of_find?_eq_some h, ?_⟩
  have := List.find?_some h
  simpa using this

theorem lookupLoad_some {db : DB} {i : Nat} {l : Load} (h : lookupLoad db i = some l) :
    l ∈ db.loads ∧ l.id = i := by
  refine ⟨List.mem_of_find?_eq_some h, ?_⟩
  have := List.find?_some h
  simpa using this

theorem find?_bid_map {f : Bid → Bid} (hf : ∀ x, (f x).id = x.id)
    (bs : List Bid) (j : Nat) :
    (bs.map f).find? (fun b => decide (b.id = j)) =
      (bs.find? (fun b => decide (b.id = j))).map f := by
  rw [List.find?_map]
  have : ((fun b : Bid => decide (b.id = j)) ∘ f) = fun b : Bid => decide (b.id = j) := by
    funext x
    simp [Function.comp, hf x]
  rw [this]

theorem find?_load_map {f : Load → Load} (hf : ∀ x, (f x).id = x.id)
    (ls : List Load) (j : Nat) :
    (ls.map f).find? (fun l => decide (l.id = j)) =
      (ls.find? (fun l => decide (l.id = j))).map f := by
  rw [List.find?_map]
  have : ((fun l : Load => decide (l.id = j)) ∘ f) = fun l : Load => decide (l.id = j) := by
    funext x
    simp [Function.comp, hf x]
  rw [this]

/-! Success and inversion characterizations of the four routes. -/

theorem accept_bid_eq_ok {db : DB} {i : Nat} {p : Principal} {b : Bid} {l : Load}
    (hb : lookupBid db i = some b) (hl : lookupLoad db b.load_id = some l)
    (hauth : p.id = l.shipper_id ∨ p.role = Role.admin) :
    accept_bid db i p =
      Except.ok
        ⟨db.loads.map (assignTo b.load_id b.trucker_id),
         db.bids.map (resolveBid i b.load_id), db.nextBidId⟩ := by
  have hcond : ¬(p.id ≠ l.shipper_id ∧ p.role ≠ Role.admin) := fun hc =>
    hauth.elim (fun h => hc.1 h) (fun h => hc.2 h)
  unfold accept_bid
  simp only [hb, hl]
  rw [if_neg hcond]

theorem reject_bid_eq_ok {db : DB} {i : Nat} {p : Principal} {b : Bid} {l : Load}
    (hb : lookupBid db i = some b) (hl : lookupLoad db b.load_id = some l)
    (hauth : p.id = l.shipper_id ∨ p.role = Role.admin) :
    reject_bid db i p =
      Except.ok ⟨db.loads, db.bids.map (rejectOne i), db.nextBidId⟩ := by
  have hcond : ¬(p.id ≠ l.shipper_id ∧ p.role ≠ Role.admin) := fun hc =>
    hauth.elim (fun h => hc.1 h) (fun h => hc.2 h)
  unfold reject_bid
  simp only [hb, hl]
  rw [if_neg hcond]

theorem update_status_eq_ok {db : DB} {lid : Nat} {p : Principal} {s : String}
    {st : LoadStatus} {l : Load}
    (hs : LoadStatus.ofString? s = some st) (hl : lookupLoad db lid = some l)
    (hauth : p.id = l.shipper_id ∨ p.role = Role.admin) :
    update_status db lid p s =
      Except.ok ⟨db.loads.map (setLoadStatus lid st), db.bids, db.nextBidId⟩ := by
  have hcond : ¬(p.id ≠ l.shipper_id ∧ p.role ≠ Role.admin) := fun hc =>
    hauth.elim (fun h => hc.1 h) (fun h => hc.2 h)
  unfold update_status
  simp only [hs, hl]
  rw [if_neg hcond]

theorem place_bid_eq_ok {db : DB} {lid : Nat} {p : Principal} {a : Option Rat}
    {m : Option String} {amt : Rat}
    (hrole : p.role = Role.trucker ∨ p.role = Role.admin)
    (ha : a = some amt) (hamt : 0 < amt)
    (hnodup : ∀ x ∈ db.bids,
      ¬(x.load_id = lid ∧ x.trucker_id = p.id ∧ x.status = BidStatus.pending)) :
    place_bid db lid p a m =
      Except.ok
        ⟨db.loads,
         db.bids ++ [⟨db.nextBidId, lid, p.id, amt, m, BidStatus.pending⟩],
         db.nextBidId + 1⟩ := by
  subst ha
  have hfind : db.bids.find? (fun b =>
      decide (b.load_id = lid ∧ b.trucker_id = p.id ∧
        b.status = BidStatus.pending)) = none := by
    rw [List.find?_eq_none]
    intro x hx
    simpa using hnodup x hx
  simp only [place_bid, hfind]
  rw [if_neg (not_not_intro hrole), if_neg (not_le.mpr hamt)]
  rfl

theorem accept_bid_ok_inv {db db' : DB} {i : Nat} {p : Principal}
    (h : accept_bid db i p = Except.ok db') :
    ∃ b, lookupBid db i = some b ∧
      db' = ⟨db.loads.map (assignTo b.load_id b.trucker_id),
             db.bids.map (resolveBid i b.load_id), db.nextBidId⟩ := by
  unfold accept_bid at h
  split at h
  · exact Except.noConfusion h
  · rename_i b hb
    split at h
    · exact Except.noConfusion h
    · split at h
      · exact Except.noConfusion h
      · injection h with h
        exact ⟨b, hb, h.symm⟩

theorem reject_bid_ok_inv {db db' : DB} {i : Nat} {p : Principal}
    (h : reject_bid db i p = Except.ok db') :
    db' = ⟨db.loads, db.bids.map (rejectOne i), db.nextBidId⟩ := by
  unfold reject_bid at h
  split at h
  · exact Except.noConfusion h
  · split at h
    · exact Except.noConfusion h
    · split at h
      · exact Except.noConfusion h
      · injection h with h
        exact h.symm

theorem update_status_ok_inv {db db' : DB} {lid : Nat} {p : Principal} {s : String}
    (h : update_status db lid p s = Except.ok db') :
    ∃ st, LoadStatus.ofString? s = some st ∧
      db' = ⟨db.loads.map (setLoadStatus lid st), db.bids, db.nextBidId⟩ := by
  unfold update_status at h
  split at h
  · exact Except.noConfusion h
  · rename_i st hs
    split at h
    · exact Except.noConfusion h
    · split at h
      · exact Except.noConfusion h
      · injection h with h
        exact ⟨st, hs, h.symm⟩

theorem place_bid_ok_inv {db db' : DB} {lid : Nat} {p : Principal}
    {a : Option Rat} {m : Option String}
    (h : place_bid db lid p a m = Except.ok db') :
    ∃ amt, a = some amt ∧ 0 < amt ∧
      (∀ x ∈ db.bids,
        ¬(x.load_id = lid ∧ x.trucker_id = p.id ∧ x.status = BidStatus.pending)) ∧
      db' = ⟨db.loads,
             db.bids ++ [⟨db.nextBidId, lid, p.id, amt, m, BidStatus.pending⟩],
             db.nextBidId + 1⟩ := by
  cases a with
  | none =>
    unfold place_bid at h
    split at h
    · exact Except.noConfusion h
    · exact Except.noConfusion h
  | some amt =>
    simp only [place_bid] at h
    split at h
    · exact Except.noConfusion h
    · split at h
      · exact Except.noConfusion h
      · rename_i h1
        split at h
        · exact Except.noConfusion h
        · rename_i h2
          injection h with h
          refine ⟨amt, rfl, not_le.mp h1, ?_, h.symm⟩
          intro x hx hcon
          apply h2
          rw [List.find?_isSome]
          exact ⟨x, hx, by simpa using hcon⟩

/-! Preservation of the invariants by single engine invocations. -/

theorem map_bid_id_preserving {f : Bid → Bid} (hf : ∀ x, (f x).id = x.id)
    (l : List Bid) : (l.map f).map Bid.id = l.map Bid.id := by
  rw [List.map_map]
  exact List.map_congr_left (fun x _ => hf x)

theorem map_load_id_preserving {f : Load → Load} (hf : ∀ x, (f x).id = x.id)
    (l : List Load) : (l.map f).map Load.id = l.map Load.id := by
  rw [List.map_map]
  exact List.map_congr_left (fun x _ => hf x)

theorem applyOp_pending (db : DB) (op : Op) (h : atMostOnePending db) :
    atMostOnePending (applyOp db op) := by
  cases op with
  | submit lid p a m =>
    cases hr : place_bid db lid p a m with
    | error e => simpa [applyOp, hr] using h
    | ok db' =>
      obtain ⟨amt, ha, hamt, hno, hdb⟩ := place_bid_ok_inv hr
      have heq : applyOp db (Op.submit lid p a m) = db' := by simp [applyOp, hr]
      rw [heq, hdb]
      unfold atMostOnePending at h ⊢
      rw [List.pairwise_append]
      refine ⟨h, List.pairwise_singleton _ _, ?_⟩
      intro x hx y hy
      rw [List.mem_singleton] at hy
      subst hy
      rintro ⟨hload, htr, hxp, _⟩
      exact hno x hx ⟨hload, htr, hxp⟩
  | accept i p =>
    cases hr : accept_bid db i p with
    | error e => simpa [applyOp, hr] using h
    | ok db' =>
      obtain ⟨b, hb, hdb⟩ := accept_bid_ok_inv hr
      have heq : applyOp db (Op.accept i p) = db' := by simp [applyOp, hr]
      rw [heq, hdb]
      unfold atMostOnePending at h ⊢
      rw [List.pairwise_map]
      refine h.imp ?_
      intro x y hxy hcon
      obtain ⟨hl', ht', hp1, hp2⟩ := hcon
      have e1 := resolveBid_pending hp1
      have e2 := resolveBid_pending hp2
      rw [e1] at hl' ht' hp1
      rw [e2] at hl' ht' hp2
      exact hxy ⟨hl', ht', hp1, hp2⟩
  | reject i p =>
    cases hr : reject_bid db i p with
    | error e => simpa [applyOp, hr] using h
    | ok db' =>
      have hdb := reject_bid_ok_inv hr
      have heq : applyOp db (Op.reject i p) = db' := by simp [applyOp, hr]
      rw [heq, hdb]
      unfold atMostOnePending at h ⊢
      rw [List.pairwise_map]
      refine h.imp ?_
      intro x y hxy hcon
      obtain ⟨hl', ht', hp1, hp2⟩ := hcon
      have e1 := rejectOne_pending hp1
      have e2 := rejectOne_pending hp2
      rw [e1] at hl' ht' hp1
      rw [e2] at hl' ht' hp2
      exact hxy ⟨hl', ht', hp1, hp2⟩
  | transition lid p s =>
    cases hr : update_status db lid p s with
    | error e => simpa [applyOp, hr] using h
    | ok db' =>
      obtain ⟨st, hs, hdb⟩ := update_status_ok_inv hr
      have heq : applyOp db (Op.transition lid p s) = db' := by simp [applyOp, hr]
      rw [heq, hdb]
      exact h

theorem applyOp_WF (db : DB) (op : Op) (h : WF db) : WF (applyOp db op) := by
  obtain ⟨hnb, hnl, hfresh⟩ := h
  cases op with
  | submit lid p a m =>
    cases hr : place_bid db lid p a m with
    | error e => simpa [applyOp, hr] using ⟨hnb, hnl, hfresh⟩
    | ok db' =>
      obtain ⟨amt, ha, hamt, hno, hdb⟩ := place_bid_ok_inv hr
      have heq : applyOp db (Op.submit lid p a m) = db' := by simp [applyOp, hr]
      rw [heq, hdb]
      refine ⟨?_, hnl, ?_⟩
      · rw [List.map_append]
        refine List.Nodup.append hnb (List.nodup_singleton _) ?_
        intro x hx1 hx2
        simp only [List.map_cons, List.map_nil, List.mem_singleton] at hx2
        subst hx2
        obtain ⟨y, hy, hyid⟩ := List.mem_map.mp hx1
        exact absurd (hfresh y hy) (by rw [hyid]; exact lt_irrefl _)
      · intro x hx
        rcases List.mem_append.mp hx with hx | hx
        · exact Nat.lt_succ_of_lt (hfresh x hx)
        · rw [List.mem_singleton] at hx
          subst hx
          exact Nat.lt_succ_self _
  | accept i p =>
    cases hr : accept_bid db i p with
    | error e => simpa [applyOp, hr] using ⟨hnb, hnl, hfresh⟩
    | ok db' =>
      obtain ⟨b, hb, hdb⟩ := accept_bid_ok_inv hr
      have heq : applyOp db (Op.accept i p) = db' := by simp [applyOp, hr]
      rw [heq, hdb]
      refine ⟨?_, ?_, ?_⟩
      · rw [map_bid_id_preserving (fun x => resolveBid_id i b.load_id x)]
        exact hnb
      · rw [map_load_id_preserving (fun x => assignTo_id b.load_id b.trucker_id x)]
        exact hnl
      · intro x hx
        obtain ⟨y, hy, hyx⟩ := List.mem_map.mp hx
        rw [← hyx, resolveBid_id]
        exact hfresh y hy
  | reject i p =>
    cases hr : reject_bid db i p with
    | error e => simpa [applyOp, hr] using ⟨hnb, hnl, hfresh⟩
    | ok db' =>
      have hdb := reject_bid_ok_inv hr
      have heq : applyOp db (Op.reject i p) = db' := by simp [applyOp, hr]
      rw [heq, hdb]
      refine ⟨?_, hnl, ?_⟩
      · rw [map_bid_id_preserving (fun x => rejectOne_id i x)]
        exact hnb
      · intro x hx
        obtain ⟨y, hy, hyx⟩ := List.mem_map.mp hx
        rw [← hyx, rejectOne_id]
        exact hfresh y hy
  | transition lid p s =>
    cases hr : update_status db lid p s with
    | error e => simpa [applyOp, hr] using ⟨hnb, hnl, hfresh⟩
    | ok db' =>
      obtain ⟨st, hs, hdb⟩ := update_status_ok_inv hr
      have heq : applyOp db (Op.transition lid p s) = db' := by simp [applyOp, hr]
      rw [heq, hdb]
      refine ⟨hnb, ?_, hfresh⟩
      rw [map_load_id_preserving (fun x => setLoadStatus_id lid st x)]
      exact hnl

theorem applyOp_acceptedInv (db : DB) (op : Op) (hwf : WF db)
    (hinv : acceptedInv db) : acceptedInv (applyOp db op) := by
  obtain ⟨huniq, hmatch⟩ := hinv
  cases op with
  | submit lid p a m =>
    cases hr : place_bid db lid p a m with
    | error e => simpa [applyOp, hr] using ⟨huniq, hmatch⟩
    | ok db' =>
      obtain ⟨amt, ha, hamt, hno, hdb⟩ := place_bid_ok_inv hr
      have heq : applyOp db (Op.submit lid p a m) = db' := by simp [applyOp, hr]
      rw [heq, hdb]
      constructor
      · unfold acceptedUnique at huniq ⊢
        rw [List.pairwise_append]
        refine ⟨huniq, List.pairwise_singleton _ _, ?_⟩
        intro x hx y hy
        rw [List.mem_singleton] at hy
        subst hy
        rintro ⟨-, -, hy2⟩
        exact BidStatus.noConfusion hy2
      · unfold acceptedMatches at hmatch ⊢
        intro l hl b hb hbl hbs
        rcases List.mem_append.mp hb with hb | hb
        · exact hmatch l hl b hb hbl hbs
        · rw [List.mem_singleton] at hb
          subst hb
          exact BidStatus.noConfusion hbs
  | accept i p =>
    cases hr : accept_bid db i p with
    | error e => simpa [applyOp, hr] using ⟨huniq, hmatch⟩
    | ok db' =>
      obtain ⟨b0, hb0, hdb⟩ := accept_bid_ok_inv hr
      have heq : applyOp db (Op.accept i p) = db' := by simp [applyOp, hr]
      rw [heq, hdb]
      obtain ⟨hb0mem, hb0id⟩ := lookupBid_some hb0
      have hinj := List.inj_on_of_nodup_map hwf.1
      have huniqid : ∀ x ∈ db.bids, x.id = i → x = b0 := fun x hx hxi =>
        hinj hx hb0mem (by rw [hxi, hb0id])
      constructor
      · unfold acceptedUnique at huniq ⊢
        rw [List.pairwise_map]
        have hids : List.Pairwise (fun x y : Bid => x.id ≠ y.id) db.bids :=
          (List.pairwise_map).mp hwf.1
        have hcomb := hids.and huniq
        refine List.Pairwise.imp_of_mem ?_ hcomb
        intro x y hxmem hymem hxy
        obtain ⟨hne, hOK⟩ := hxy
        rintro ⟨hload, hacc1, hacc2⟩
        have hxyload : x.load_id = y.load_id := by
          rw [← resolveBid_load_id i b0.load_id x, ← resolveBid_load_id i b0.load_id y]
          exact hload
        rcases resolveBid_accepted hacc1 with hx1 | ⟨hx1, hxl, hxs⟩
        · rcases resolveBid_accepted hacc2 with hy1 | ⟨hy1, hyl, hys⟩
          · exact hne (by rw [hx1, hy1])
          · have hxb := huniqid x hxmem hx1
            apply hyl
            rw [← hxyload, hxb]
        · rcases resolveBid_accepted hacc2 with hy1 | ⟨hy1, hyl, hys⟩
          · have hyb := huniqid y hymem hy1
            apply hxl
            rw [hxyload, hyb]
          · exact hOK ⟨hxyload, hxs, hys⟩
      · unfold acceptedMatches at hmatch ⊢
        intro l' hl' b' hb' hbl hbs
        obtain ⟨L, hL, hLl⟩ := List.mem_map.mp hl'
        obtain ⟨x, hx, hxb⟩ := List.mem_map.mp hb'
        subst hLl
        subst hxb
        have hxload : x.load_id = L.id := by
          rw [← resolveBid_load_id i b0.load_id x, hbl, assignTo_id]
        by_cases hLid : L.id = b0.load_id
        · rw [assignTo_of_eq hLid]
          rcases resolveBid_accepted hbs with hx1 | ⟨hx1, hxl, hxs⟩
          · have hxb0 := huniqid x hx hx1
            simp [resolveBid_trucker_id, hxb0]
          · exact absurd (by rw [hxload, hLid] : x.load_id = b0.load_id) hxl
        · rw [assignTo_of_ne hLid]
          rcases resolveBid_accepted hbs with hx1 | ⟨hx1, hxl, hxs⟩
          · have hxb0 := huniqid x hx hx1
            exact absurd (by rw [← hxload, hxb0] : L.id = b0.load_id).symm
              (fun hh => hLid hh.symm)
          · have hfx : resolveBid i b0.load_id x = x := resolveBid_of_other hx1 hxl
            rw [hfx]
            exact hmatch L hL x hx hxload hxs
  | reject i p =>
    cases hr : reject_bid db i p with
    | error e => simpa [applyOp, hr] using ⟨huniq, hmatch⟩
    | ok db' =>
      have hdb := reject_bid_ok_inv hr
      have heq : applyOp db (Op.reject i p) = db' := by simp [applyOp, hr]
      rw [heq, hdb]
      constructor
      · unfold acceptedUnique at huniq ⊢
        rw [List.pairwise_map]
        refine huniq.imp ?_
        intro x y hxy
        rintro ⟨hload, h1, h2⟩
        have e1 := rejectOne_accepted h1
        have e2 := rejectOne_accepted h2
        rw [e1] at hload h1
        rw [e2] at hload h2
        exact hxy ⟨hload, h1, h2⟩
      · unfold acceptedMatches at hmatch ⊢
        intro l hl b' hb' hbl hbs
        obtain ⟨x, hx, hxb⟩ := List.mem_map.mp hb'
        subst hxb
        have e := rejectOne_accepted hbs
        rw [e] at hbl hbs ⊢
        exact hmatch l hl x hx hbl hbs
  | transition lid p s =>
    cases hr : update_status db lid p s with
    | error e => simpa [applyOp, hr] using ⟨huniq, hmatch⟩
    | ok db' =>
      obtain ⟨st, hs, hdb⟩ := update_status_ok_inv hr
      have heq : applyOp db (Op.transition lid p s) = db' := by simp [applyOp, hr]
      rw [heq, hdb]
      constructor
      · exact huniq
      · unfold acceptedMatches at hmatch ⊢
        intro l' hl' b hb hbl hbs
        obtain ⟨L, hL, hLl⟩ := List.mem_map.mp hl'
        subst hLl
        rw [setLoadStatus_trucker_id]
        refine hmatch L hL b hb ?_ hbs
        rw [← setLoadStatus_id lid st L]
        exact hbl

theorem applyOp_assignInv (db : DB) (op : Op) (hop : op.isTransition = false)
    (h : assignInv db) : assignInv (applyOp db op) := by
  cases op with
  | submit lid p a m =>
    cases hr : place_bid db lid p a m with
    | error e => simpa [applyOp, hr] using h
    | ok db' =>
      obtain ⟨amt, ha, hamt, hno, hdb⟩ := place_bid_ok_inv hr
      have heq : applyOp db (Op.submit lid p a m) = db' := by simp [applyOp, hr]
      rw [heq, hdb]
      intro l hl
      exact h l hl
  | accept i p =>
    cases hr : accept_bid db i p with
    | error e => simpa [applyOp, hr] using h
    | ok db' =>
      obtain ⟨b0, hb0, hdb⟩ := accept_bid_ok_inv hr
      have heq : applyOp db (Op.accept i p) = db' := by simp [applyOp, hr]
      rw [heq, hdb]
      intro l' hl'
      obtain ⟨L, hL, hLl⟩ := List.mem_map.mp hl'
      subst hLl
      by_cases hid : L.id = b0.load_id
      · rw [assignTo_of_eq hid]
        simp
      · rw [assignTo_of_ne hid]
        exact h L hL
  | reject i p =>
    cases hr : reject_bid db i p with
    | error e => simpa [applyOp, hr] using h
    | ok db' =>
      have hdb := reject_bid_ok_inv hr
      have heq : applyOp db (Op.reject i p) = db' := by simp [applyOp, hr]
      rw [heq, hdb]
      intro l hl
      exact h l hl
  | transition lid p s => simp [Op.isTransition] at hop

/-! Preservation along arbitrary operation sequences. -/

theorem runOps_preserve (P : DB → Prop)
    (hstep : ∀ db op, P db → P (applyOp db op)) :
    ∀ (ops : List Op) (db : DB), P db → P (runOps db ops)
  | [], _, h => h
  | op :: ops, db, h =>
    runOps_preserve P hstep ops (applyOp db op) (hstep db op h)

theorem runOps_pending (db : DB) (ops : List Op) (h : atMostOnePending db) :
    atMostOnePending (runOps db ops) :=
  runOps_preserve atMostOnePending applyOp_pending ops db h

theorem runOps_WF_acceptedInv (db : DB) (ops : List Op) (hwf : WF db)
    (hinv : acceptedInv db) : WF (runOps db ops) ∧ acceptedInv (runOps db ops) :=
  runOps_preserve (fun d => WF d ∧ acceptedInv d)
    (fun d op hd => ⟨applyOp_WF d op hd.1, applyOp_acceptedInv d op hd.1 hd.2⟩)
    ops db ⟨hwf, hinv⟩

theorem runOps_assignInv :
    ∀ (ops : List Op) (db : DB), (∀ op ∈ ops, op.isTransition = false) →
      assignInv db → assignInv (runOps db ops)
  | [], _, _, h => h
  | op :: ops, db, hall, h =>
    runOps_assignInv ops (applyOp db op)
      (fun o ho => hall o (List.mem_cons_of_mem _ ho))
      (applyOp_assignInv db op (hall op (List.mem_cons_self _ _)) h)

/-! Concrete states used by witnesses and counterexamples. -/

/-- The load poster. -/
def shipper10 : Principal := ⟨10, Role.shipper⟩

/-- A trucker with no bids in the example states. -/
def trucker21 : Principal := ⟨21, Role.trucker⟩

/-- The trucker owning the first example bid. -/
def trucker20 : Principal := ⟨20, Role.trucker⟩

/-- An open load with no assigned trucker. -/
def exOpenLoad : Load := ⟨1, 10, LoadStatus.open', none⟩

/-- An assigned load with trucker 20. -/
def exAssignedLoad : Load := ⟨1, 10, LoadStatus.assigned, some 20⟩

/-- A pending 500-dollar bid by trucker 20 on load 1. -/
def exBidP1 : Bid := ⟨1, 1, 20, 500, none, BidStatus.pending⟩

/-- A pending 450-dollar bid by trucker 21 on load 1. -/
def exBidP2 : Bid := ⟨2, 1, 21, 450, none, BidStatus.pending⟩

/-- The accepted variant of the first example bid. -/
def exBidA1 : Bid := ⟨1, 1, 20, 500, none, BidStatus.accepted⟩

/-- An open load with two pending bids. -/
def dbOpen2 : DB := ⟨[exOpenLoad], [exBidP1, exBidP2], 3⟩

/-- An assigned load whose bid 1 is accepted and bid 2 still pending. -/
def dbAssigned : DB := ⟨[exAssignedLoad], [exBidA1, exBidP2], 3⟩

/-- The state produced by accepting bid 2 of dbAssigned. -/
def dbAssignedAfter : DB :=
  ⟨[⟨1, 10, LoadStatus.assigned, some 21⟩],
   [⟨1, 1, 20, 500, none, BidStatus.rejected⟩,
    ⟨2, 1, 21, 450, none, BidStatus.accepted⟩], 3⟩

/-! Claim C1. -/

/-- Claim C1, counterexample: in dbAssigned the load of bid 2 has status
    assigned (not open), yet accept_bid by the load's poster does not fail
    with LoadNotOpen: it succeeds and mutates both the load and the bids,
    re-applying the acceptance to bid 2. -/
theorem C1_counterexample :
    lookupLoad dbAssigned 1 = some exAssignedLoad ∧
    exAssignedLoad.status ≠ LoadStatus.open' ∧
    accept_bid dbAssigned 2 shipper10 = Except.ok dbAssignedAfter ∧
    dbAssignedAfter ≠ dbAssigned :=
  ⟨rfl, by decide, rfl, by decide⟩

/-- Claim C1 (amended): accept_bid performs no load-status check. For every
    existing bid whose load has status different from open, an authorized
    call succeeds and re-applies the full acceptance: the bid becomes
    accepted, all sibling bids become rejected, and the load is set to
    assigned with the bid's trucker — rather than failing with LoadNotOpen
    and leaving the state unchanged as the claim states. -/
theorem C1_acceptBid_no_status_check (db : DB) (i : Nat) (p : Principal)
    (b : Bid) (l : Load)
    (hb : lookupBid db i = some b) (hl : lookupLoad db b.load_id = some l)
    (hstat : l.status ≠ LoadStatus.open')
    (hauth : p.id = l.shipper_id ∨ p.role = Role.admin) :
    accept_bid db i p =
      Except.ok ⟨db.loads.map (assignTo b.load_id b.trucker_id),
                 db.bids.map (resolveBid i b.load_id), db.nextBidId⟩ ∧
    lookupLoad ⟨db.loads.map (assignTo b.load_id b.trucker_id),
                db.bids.map (resolveBid i b.load_id), db.nextBidId⟩ b.load_id =
      some { l with status := LoadStatus.assigned,
                    trucker_id := some b.trucker_id } := by
  refine ⟨accept_bid_eq_ok hb hl hauth, ?_⟩
  obtain ⟨hlmem, hlid⟩ := lookupLoad_some hl
  have hl' : db.loads.find? (fun L => decide (L.id = b.load_id)) = some l := hl
  unfold lookupLoad
  rw [find?_load_map (fun x => assignTo_id b.load_id b.trucker_id x), hl']
  rw [Option.map_some', assignTo_of_eq hlid]

/-- Witness for the amended claim C1, at the counterexample state. -/
theorem C1_acceptBid_no_status_check_witness :
    accept_bid dbAssigned 2 shipper10 =
      Except.ok ⟨dbAssigned.loads.map (assignTo exBidP2.load_id exBidP2.trucker_id),
                 dbAssigned.bids.map (resolveBid 2 exBidP2.load_id),
                 dbAssigned.nextBidId⟩ :=
  (C1_acceptBid_no_status_check dbAssigned 2 shipper10 exBidP2 exAssignedLoad
    rfl rfl (by decide) (Or.inl rfl)).1

/-! Claim C2. -/

/-- Claim C2: for every existing bid B on a load L with status open, when
    accept_bid is invoked by L's poster or an admin it succeeds, and its net
    effect is exactly: B becomes accepted, every other bid of L (regardless
    of prior status) becomes rejected, bids of other loads and the bid
    counter are untouched, and L becomes assigned with B's trucker as its
    assigned bidder. -/
theorem C2_acceptBid_net_effect (db : DB) (i : Nat) (p : Principal)
    (b : Bid) (l : Load)
    (hb : lookupBid db i = some b) (hl : lookupLoad db b.load_id = some l)
    (hopen : l.status = LoadStatus.open')
    (hauth : p.id = l.shipper_id ∨ p.role = Role.admin) :
    ∃ db', accept_bid db i p = Except.ok db' ∧
      db'.bids = db.bids.map (resolveBid i b.load_id) ∧
      db'.loads = db.loads.map (assignTo b.load_id b.trucker_id) ∧
      db'.nextBidId = db.nextBidId ∧
      (∀ x ∈ db'.bids, (x.id = i → x.status = BidStatus.accepted) ∧
        (x.id ≠ i → x.load_id = b.load_id → x.status = BidStatus.rejected)) ∧
      (∀ L ∈ db'.loads, L.id = b.load_id →
        L.status = LoadStatus.assigned ∧ L.trucker_id = some b.trucker_id) := by
  refine ⟨_, accept_bid_eq_ok hb hl hauth, rfl, rfl, rfl, ?_, ?_⟩
  · intro x hx
    obtain ⟨y, hy, hyx⟩ := List.mem_map.mp hx
    subst hyx
    constructor
    · intro hid
      rw [resolveBid_id] at hid
      rw [resolveBid_of_id hid]
    · intro hid hld
      rw [resolveBid_id] at hid
      rw [resolveBid_load_id] at hld
      rw [resolveBid_of_load hid hld]
  · intro L hL hid
    obtain ⟨M, hM, hML⟩ := List.mem_map.mp hL
    subst hML
    rw [assignTo_id] at hid
    rw [assignTo_of_eq hid]
    exact ⟨rfl, rfl⟩

/-- Witness for claim C2: accepting bid 1 of the open load of dbOpen2. -/
theorem C2_acceptBid_net_effect_witness :
    ∃ db', accept_bid dbOpen2 1 shipper10 = Except.ok db' ∧
      db'.bids = dbOpen2.bids.map (resolveBid 1 exBidP1.load_id) ∧
      db'.loads = dbOpen2.loads.map (assignTo exBidP1.load_id exBidP1.trucker_id) ∧
      db'.nextBidId = dbOpen2.nextBidId ∧
      (∀ x ∈ db'.bids, (x.id = 1 → x.status = BidStatus.accepted) ∧
        (x.id ≠ 1 → x.load_id = exBidP1.load_id → x.status = BidStatus.rejected)) ∧
      (∀ L ∈ db'.loads, L.id = exBidP1.load_id →
        L.status = LoadStatus.assigned ∧ L.trucker_id = some exBidP1.trucker_id) :=
  C2_acceptBid_net_effect dbOpen2 1 shipper10 exBidP1 exOpenLoad rfl rfl rfl
    (Or.inl rfl)

/-! Claim C3. -/

/-- An open load with no bids, satisfying the assignment invariant. -/
def dbC3 : DB := ⟨[exOpenLoad], [], 1⟩

/-- dbC3 after update_status to assigned: status assigned, trucker still null. -/
def dbC3' : DB := ⟨[⟨1, 10, LoadStatus.assigned, none⟩], [], 1⟩

/-- Claim C3, counterexample: from a state satisfying the invariant
    (assigned-bidder set iff status in assigned, in_transit, delivered), a
    single transitionLoad invocation to assigned reaches a state violating
    it: status assigned with a null assigned-bidder. update_status never
    touches trucker_id. -/
theorem C3_counterexample :
    assignInv dbC3 ∧
    runOps dbC3 [Op.transition 1 shipper10 "assigned"] = dbC3' ∧
    ¬ assignInv dbC3' :=
  ⟨by decide, rfl, by decide⟩

/-- Claim C3 (amended): the invariant (assigned-bidder set iff status in
    assigned, in_transit, delivered) is preserved by submitBid, acceptBid and
    rejectBid, starting from any state satisfying it; it is NOT preserved by
    transitionLoad, which overwrites the status without ever touching the
    assigned-bidder (see the counterexample). -/
theorem C3_assignInv_preserved_without_transition (db : DB) (ops : List Op)
    (hops : ∀ op ∈ ops, op.isTransition = false) (h : assignInv db) :
    assignInv (runOps db ops) :=
  runOps_assignInv ops db hops h

/-- Witness for the amended claim C3: an accept followed by a reject. -/
theorem C3_assignInv_preserved_without_transition_witness :
    assignInv (runOps dbOpen2 [Op.accept 1 shipper10, Op.reject 2 shipper10]) :=
  C3_assignInv_preserved_without_transition dbOpen2
    [Op.accept 1 shipper10, Op.reject 2 shipper10] (by decide) (by decide)

/-! Claim C4. -/

/-- A delivered load (a terminal status per the spec). -/
def dbDelivered : DB := ⟨[⟨1, 10, LoadStatus.delivered, some 20⟩], [], 1⟩

/-- dbDelivered after update_status back to open. -/
def dbDelivered' : DB := ⟨[⟨1, 10, LoadStatus.open', some 20⟩], [], 1⟩

/-- Claim C4, counterexample: transitioning a delivered load back to open —
    an edge outside the allowed set, out of a terminal status — does not
    fail with IllegalTransition: it succeeds and overwrites the status. -/
theorem C4_counterexample :
    lookupLoad dbDelivered 1 = some ⟨1, 10, LoadStatus.delivered, some 20⟩ ∧
    update_status dbDelivered 1 shipper10 "open" = Except.ok dbDelivered' ∧
    update_status dbDelivered 1 shipper10 "open" ≠
      Except.error EngineError.illegalTransition := by
  refine ⟨rfl, rfl, ?_⟩
  intro h
  exact Except.noConfusion
    ((rfl : update_status dbDelivered 1 shipper10 "open" =
      Except.ok dbDelivered').symm.trans h)

/-- Claim C4 (amended): update_status performs no transition-edge
    validation. For every existing load and authorized principal, every
    target among the five legal status names succeeds and overwrites the
    status regardless of the current status (including out of delivered and
    cancelled); the only rejected targets are strings outside the five
    names, which fail with 400 BadRequest — IllegalTransition never occurs. -/
theorem C4_transition_no_edge_validation :
    (∀ (db : DB) (lid : Nat) (p : Principal) (s : String) (st : LoadStatus)
      (l : Load),
      LoadStatus.ofString? s = some st → lookupLoad db lid = some l →
      (p.id = l.shipper_id ∨ p.role = Role.admin) →
      update_status db lid p s =
        Except.ok ⟨db.loads.map (setLoadStatus lid st), db.bids,
                   db.nextBidId⟩) ∧
    (∀ (db : DB) (lid : Nat) (p : Principal) (s : String),
      LoadStatus.ofString? s = none →
      update_status db lid p s = Except.error EngineError.badRequest) :=
  ⟨fun _ _ _ _ _ _ hs hl hauth => update_status_eq_ok hs hl hauth,
   fun db lid p s hs => by simp only [update_status, hs]⟩

/-- Witness for the amended claim C4: delivered back to open succeeds, an
    unknown status string is a bad request. -/
theorem C4_transition_no_edge_validation_witness :
    update_status dbDelivered 1 shipper10 "open" =
      Except.ok ⟨dbDelivered.loads.map (setLoadStatus 1 LoadStatus.open'),
                 dbDelivered.bids, dbDelivered.nextBidId⟩ ∧
    update_status dbDelivered 1 shipper10 "bogus" =
      Except.error EngineError.badRequest :=
  ⟨C4_transition_no_edge_validation.1 dbDelivered 1 shipper10 "open"
      LoadStatus.open' ⟨1, 10, LoadStatus.delivered, some 20⟩ rfl rfl (Or.inl rfl),
   C4_transition_no_edge_validation.2 dbDelivered 1 shipper10 "bogus" rfl⟩

/-! Claim C5. -/

/-- An assigned (not open) load with no bids. -/
def dbC5 : DB := ⟨[exAssignedLoad], [], 1⟩

/-- dbC5 after a successful bid by trucker 21. -/
def dbC5' : DB := ⟨[exAssignedLoad], [⟨1, 1, 21, 450, none, BidStatus.pending⟩], 2⟩

/-- Claim C5, counterexample: submitting a bid on a load whose status is
    assigned (not open) does not fail with LoadNotOpen: it succeeds and
    creates a pending bid record. place_bid never reads the loads table. -/
theorem C5_counterexample :
    lookupLoad dbC5 1 = some exAssignedLoad ∧
    exAssignedLoad.status ≠ LoadStatus.open' ∧
    place_bid dbC5 1 trucker21 (some 450) none = Except.ok dbC5' ∧
    dbC5'.bids ≠ [] :=
  ⟨rfl, by decide, rfl, by decide⟩

/-- Claim C5 (amended): place_bid checks only the caller's role, the amount
    and the absence of a duplicate pending bid; it never inspects the
    referenced load. Whenever the role is trucker (or admin), the amount is
    positive and no pending bid by this trucker on this load exists, a new
    pending bid is inserted — regardless of the load's status, and even if
    no such load exists. There is no LoadNotOpen failure. -/
theorem C5_submitBid_ignores_load (db : DB) (lid : Nat) (p : Principal)
    (a : Option Rat) (m : Option String) (amt : Rat)
    (hrole : p.role = Role.trucker ∨ p.role = Role.admin)
    (ha : a = some amt) (hamt : 0 < amt)
    (hnodup : ∀ x ∈ db.bids,
      ¬(x.load_id = lid ∧ x.trucker_id = p.id ∧ x.status = BidStatus.pending)) :
    place_bid db lid p a m =
      Except.ok ⟨db.loads,
        db.bids ++ [⟨db.nextBidId, lid, p.id, amt, m, BidStatus.pending⟩],
        db.nextBidId + 1⟩ :=
  place_bid_eq_ok hrole ha hamt hnodup

/-- Witness for the amended claim C5, on the assigned load of dbC5. -/
theorem C5_submitBid_ignores_load_witness :
    place_bid dbC5 1 trucker21 (some 450) none =
      Except.ok ⟨dbC5.loads,
        dbC5.bids ++ [⟨dbC5.nextBidId, 1, trucker21.id, 450, none,
          BidStatus.pending⟩],
        dbC5.nextBidId + 1⟩ :=
  C5_submitBid_ignores_load dbC5 1 trucker21 (some 450) none 450 (Or.inl rfl)
    rfl (by decide) (by decide)

/-! Claim C6. -/

/-- An open load with one pending bid by trucker 20. -/
def dbDup : DB := ⟨[exOpenLoad], [exBidP1], 2⟩

/-- Claim C6: for every (load, bidder) pair at most one pending bid exists
    after any sequence of engine operations, starting from a state with that
    property; and place_bid fails with DuplicatePendingBid and inserts
    nothing when an otherwise valid submission (trucker role, positive
    amount) hits an existing pending bid for the same pair. -/
theorem C6_pending_unique :
    (∀ (db : DB) (ops : List Op), atMostOnePending db →
      atMostOnePending (runOps db ops)) ∧
    (∀ (db : DB) (lid : Nat) (p : Principal) (a : Option Rat)
      (m : Option String) (amt : Rat) (b0 : Bid),
      (p.role = Role.trucker ∨ p.role = Role.admin) → a = some amt →
      0 < amt → b0 ∈ db.bids → b0.load_id = lid → b0.trucker_id = p.id →
      b0.status = BidStatus.pending →
      place_bid db lid p a m = Except.error EngineError.duplicatePendingBid) := by
  constructor
  · exact fun db ops h => runOps_pending db ops h
  · intro db lid p a m amt b0 hrole ha hamt hmem hlid htr hst
    subst ha
    have h2 : (db.bids.find? (fun b =>
        decide (b.load_id = lid ∧ b.trucker_id = p.id ∧
          b.status = BidStatus.pending))).isSome = true := by
      rw [List.find?_isSome]
      exact ⟨b0, hmem, by simp [hlid, htr, hst]⟩
    simp only [place_bid]
    rw [if_neg (not_not_intro hrole), if_neg (not_le.mpr hamt), if_pos h2]

/-- Witness for claim C6: the invariant after an accept and a new bid, and
    the duplicate failure for trucker 20 who already has a pending bid. -/
theorem C6_pending_unique_witness :
    atMostOnePending
      (runOps dbOpen2 [Op.accept 1 shipper10, Op.submit 1 trucker21 (some 600) none]) ∧
    place_bid dbDup 1 trucker20 (some 600) none =
      Except.error EngineError.duplicatePendingBid :=
  ⟨C6_pending_unique.1 dbOpen2
      [Op.accept 1 shipper10, Op.submit 1 trucker21 (some 600) none] (by decide),
   C6_pending_unique.2 dbDup 1 trucker20 (some 600) none 600 exBidP1
      (Or.inl rfl) rfl (by decide) (by decide) rfl rfl rfl⟩

/-! Claim C7. -/

/-- Claim C7: starting from any well-formed state (unique primary keys,
    fresh bid counter) satisfying the accepted-bid invariant, after any
    sequence of engine operations each load still has at most one accepted
    bid, and every accepted bid's trucker equals its load's assigned
    trucker. -/
theorem C7_accepted_unique_matches (db : DB) (ops : List Op) (hwf : WF db)
    (hinv : acceptedInv db) : acceptedInv (runOps db ops) :=
  (runOps_WF_acceptedInv db ops hwf hinv).2

/-- Witness for claim C7: accept, reject and transition on dbOpen2. -/
theorem C7_accepted_unique_matches_witness :
    acceptedInv (runOps dbOpen2
      [Op.accept 1 shipper10, Op.reject 2 shipper10,
       Op.transition 1 shipper10 "in_transit"]) :=
  C7_accepted_unique_matches dbOpen2
    [Op.accept 1 shipper10, Op.reject 2 shipper10,
     Op.transition 1 shipper10 "in_transit"] (by decide) (by decide)

/-! Claim C8. -/

/-- Claim C8: for every existing bid B (with its load present) and
    authorized principal, reject_bid succeeds and changes only B's status,
    to rejected: the loads table and the bid counter are identical, every
    other bid is unchanged (and still present), and B keeps all its fields
    except the status. -/
theorem C8_rejectBid_frame (db : DB) (i : Nat) (p : Principal) (b : Bid)
    (l : Load)
    (hb : lookupBid db i = some b) (hl : lookupLoad db b.load_id = some l)
    (hauth : p.id = l.shipper_id ∨ p.role = Role.admin) :
    ∃ db', reject_bid db i p = Except.ok db' ∧
      db'.loads = db.loads ∧
      db'.nextBidId = db.nextBidId ∧
      db'.bids = db.bids.map (rejectOne i) ∧
      (∀ x ∈ db.bids, x.id ≠ i → x ∈ db'.bids) ∧
      (∀ x ∈ db'.bids, x.id = i → x.status = BidStatus.rejected) ∧
      (∀ x ∈ db'.bids, ∃ y ∈ db.bids, x.id = y.id ∧ x.load_id = y.load_id ∧
        x.trucker_id = y.trucker_id ∧ x.amount = y.amount ∧
        x.message = y.message) := by
  refine ⟨_, reject_bid_eq_ok hb hl hauth, rfl, rfl, rfl, ?_, ?_, ?_⟩
  · intro x hx hxi
    exact List.mem_map.mpr ⟨x, hx, rejectOne_of_ne hxi⟩
  · intro x hx hxi
    obtain ⟨y, hy, hyx⟩ := List.mem_map.mp hx
    subst hyx
    rw [rejectOne_id] at hxi
    rw [rejectOne_of_id hxi]
  · intro x hx
    obtain ⟨y, hy, hyx⟩ := List.mem_map.mp hx
    subst hyx
    by_cases hc : y.id = i
    · rw [rejectOne_of_id hc]
      exact ⟨y, hy, rfl, rfl, rfl, rfl, rfl⟩
    · rw [rejectOne_of_ne hc]
      exact ⟨y, hy, rfl, rfl, rfl, rfl, rfl⟩

/-- Witness for claim C8: rejecting pending bid 2 of dbOpen2. -/
theorem C8_rejectBid_frame_witness :
    ∃ db', reject_bid dbOpen2 2 shipper10 = Except.ok db' ∧
      db'.loads = dbOpen2.loads ∧
      db'.nextBidId = dbOpen2.nextBidId ∧
      db'.bids = dbOpen2.bids.map (rejectOne 2) ∧
      (∀ x ∈ dbOpen2.bids, x.id ≠ 2 → x ∈ db'.bids) ∧
      (∀ x ∈ db'.bids, x.id = 2 → x.status = BidStatus.rejected) ∧
      (∀ x ∈ db'.bids, ∃ y ∈ dbOpen2.bids, x.id = y.id ∧
        x.load_id = y.load_id ∧ x.trucker_id = y.trucker_id ∧
        x.amount = y.amount ∧ x.message = y.message) :=
  C8_rejectBid_frame dbOpen2 2 shipper10 exBidP2 exOpenLoad rfl rfl (Or.inl rfl)

/-! Claim C10. -/

/-- Claim C10 (implicit): reject_bid imposes no precondition on the target
    bid's current status: any existing bid, whatever its status, is set to
    rejected by an authorized call. In particular rejecting the unique
    accepted bid of an assigned load succeeds and leaves the load assigned
    with its assigned trucker intact but with no accepted bid at all. -/
theorem C10_reject_no_precondition :
    (∀ (db : DB) (i : Nat) (p : Principal) (b : Bid) (l : Load),
      lookupBid db i = some b → lookupLoad db b.load_id = some l →
      (p.id = l.shipper_id ∨ p.role = Role.admin) →
      ∃ db', reject_bid db i p = Except.ok db' ∧
        ∀ x ∈ db'.bids, x.id = i → x.status = BidStatus.rejected) ∧
    (∀ (db : DB) (i : Nat) (p : Principal) (b : Bid) (l : Load) (t : Nat),
      lookupBid db i = some b → lookupLoad db b.load_id = some l →
      (p.id = l.shipper_id ∨ p.role = Role.admin) →
      b.status = BidStatus.accepted →
      l.status = LoadStatus.assigned → l.trucker_id = some t →
      (∀ x ∈ db.bids, x.status = BidStatus.accepted → x.id = i) →
      ∃ db', reject_bid db i p = Except.ok db' ∧
        lookupLoad db' b.load_id = some l ∧
        ∀ x ∈ db'.bids, x.status ≠ BidStatus.accepted) := by
  constructor
  · intro db i p b l hb hl hauth
    refine ⟨_, reject_bid_eq_ok hb hl hauth, ?_⟩
    intro x hx hxi
    obtain ⟨y, hy, hyx⟩ := List.mem_map.mp hx
    subst hyx
    rw [rejectOne_id] at hxi
    rw [rejectOne_of_id hxi]
  · intro db i p b l t hb hl hauth hbacc hlst hltr huniq
    refine ⟨_, reject_bid_eq_ok hb hl hauth, hl, ?_⟩
    intro x hx hxa
    obtain ⟨y, hy, hyx⟩ := List.mem_map.mp hx
    subst hyx
    by_cases hc : y.id = i
    · rw [rejectOne_of_id hc] at hxa
      exact BidStatus.noConfusion hxa
    · rw [rejectOne_of_ne hc] at hxa
      exact hc (huniq y hy hxa)

/-- Witness for claim C10: rejecting any bid, and rejecting the accepted
    bid 1 of the assigned load of dbAssigned. -/
theorem C10_reject_no_precondition_witness :
    (∃ db', reject_bid dbOpen2 1 shipper10 = Except.ok db' ∧
      ∀ x ∈ db'.bids, x.id = 1 → x.status = BidStatus.rejected) ∧
    (∃ db', reject_bid dbAssigned 1 shipper10 = Except.ok db' ∧
      lookupLoad db' exBidA1.load_id = some exAssignedLoad ∧
      ∀ x ∈ db'.bids, x.status ≠ BidStatus.accepted) :=
  ⟨C10_reject_no_precondition.1 dbOpen2 1 shipper10 exBidP1 exOpenLoad rfl rfl
      (Or.inl rfl),
   C10_reject_no_precondition.2 dbAssigned 1 shipper10 exBidA1 exAssignedLoad
      20 rfl rfl (Or.inl rfl) rfl rfl rfl (by decide)⟩

/-! Claim C9. -/

theorem lookupBid_mk_map (ls : List Load) (bs : List Bid) (n : Nat)
    (f : Bid → Bid) (hf : ∀ x, (f x).id = x.id) (j : Nat) :
    lookupBid ⟨ls, bs.map f, n⟩ j =
      (bs.find? (fun b => decide (b.id = j))).map f := by
  unfold lookupBid
  exact find?_bid_map hf bs j

theorem lookupLoad_mk_map (ls : List Load) (bs : List Bid) (n : Nat)
    (f : Load → Load) (hf : ∀ x, (f x).id = x.id) (j : Nat) :
    lookupLoad ⟨ls.map f, bs, n⟩ j =
      (ls.find? (fun l => decide (l.id = j))).map f := by
  unfold lookupLoad
  exact find?_load_map hf ls j

/-- dbOpen2 after accepting bid 1: bid 1 wins, bid 2 rejected, trucker 20. -/
def dbWin1 : DB :=
  ⟨[⟨1, 10, LoadStatus.assigned, some 20⟩],
   [⟨1, 1, 20, 500, none, BidStatus.accepted⟩,
    ⟨2, 1, 21, 450, none, BidStatus.rejected⟩], 3⟩

/-- dbOpen2 after accepting bid 2: bid 2 wins, bid 1 rejected, trucker 21. -/
def dbWin2 : DB :=
  ⟨[⟨1, 10, LoadStatus.assigned, some 21⟩],
   [⟨1, 1, 20, 500, none, BidStatus.rejected⟩,
    ⟨2, 1, 21, 450, none, BidStatus.accepted⟩], 3⟩

/-- Claim C9, counterexample: two acceptBid calls on the two distinct
    pending bids of the open load of dbOpen2, executed under either
    serialization order, BOTH succeed; the second call never observes
    LoadNotOpen. The engine is last-write-wins: the later accept overwrites
    the earlier assignment. -/
theorem C9_counterexample :
    accept_bid dbOpen2 1 shipper10 = Except.ok dbWin1 ∧
    accept_bid dbWin1 2 shipper10 = Except.ok dbWin2 ∧
    accept_bid dbWin1 2 shipper10 ≠ Except.error EngineError.loadNotOpen ∧
    accept_bid dbOpen2 2 shipper10 = Except.ok dbWin2 ∧
    accept_bid dbWin2 1 shipper10 = Except.ok dbWin1 := by
  refine ⟨rfl, rfl, ?_, rfl, rfl⟩
  intro h
  exact Except.noConfusion
    ((rfl : accept_bid dbWin1 2 shipper10 = Except.ok dbWin2).symm.trans h)

/-- Claim C9 (amended): with concurrency modelled as the store's
    serialization of the two accept transactions, both acceptBid calls on
    distinct pending bids of the same open load succeed — the loser never
    observes LoadNotOpen, because accept_bid re-checks nothing. The later
    call wins: afterwards its bid is the unique accepted bid of the load,
    every other bid of the load is rejected, and the load is assigned to the
    later bid's trucker. -/
theorem C9_serialized_accepts_last_wins (db : DB) (i1 i2 : Nat) (p : Principal)
    (b1 b2 : Bid) (l : Load)
    (hb1 : lookupBid db i1 = some b1) (hb2 : lookupBid db i2 = some b2)
    (hne : i1 ≠ i2)
    (hl1 : b1.load_id = l.id) (hl2 : b2.load_id = l.id)
    (hlook : lookupLoad db l.id = some l)
    (hopen : l.status = LoadStatus.open')
    (hp1 : b1.status = BidStatus.pending) (hp2 : b2.status = BidStatus.pending)
    (hauth : p.id = l.shipper_id ∨ p.role = Role.admin) :
    ∃ db1 db2, accept_bid db i1 p = Except.ok db1 ∧
      accept_bid db1 i2 p = Except.ok db2 ∧
      lookupLoad db2 l.id =
        some { l with status := LoadStatus.assigned,
                      trucker_id := some b2.trucker_id } ∧
      (∀ x ∈ db2.bids, x.load_id = l.id →
        x.status = if x.id = i2 then BidStatus.accepted
                   else BidStatus.rejected) := by
  obtain ⟨hb2mem, hb2id⟩ := lookupBid_some hb2
  have hlb1 : lookupLoad db b1.load_id = some l := by rw [hl1]; exact hlook
  have h1 : accept_bid db i1 p = Except.ok
      ⟨db.loads.map (assignTo b1.load_id b1.trucker_id),
       db.bids.map (resolveBid i1 b1.load_id), db.nextBidId⟩ :=
    accept_bid_eq_ok hb1 hlb1 hauth
  have hlook' : db.loads.find? (fun L => decide (L.id = l.id)) = some l := hlook
  have hb2find : db.bids.find? (fun b => decide (b.id = i2)) = some b2 := hb2
  have hb2' : lookupBid ⟨db.loads.map (assignTo b1.load_id b1.trucker_id),
      db.bids.map (resolveBid i1 b1.load_id), db.nextBidId⟩ i2 =
      some (resolveBid i1 b1.load_id b2) := by
    rw [lookupBid_mk_map _ _ _ _ (fun x => resolveBid_id i1 b1.load_id x) i2,
      hb2find]
    rfl
  have hfl : (resolveBid i1 b1.load_id b2).load_id = l.id := by
    rw [resolveBid_load_id, hl2]
  have hload1 : lookupLoad ⟨db.loads.map (assignTo b1.load_id b1.trucker_id),
      db.bids.map (resolveBid i1 b1.load_id), db.nextBidId⟩
      (resolveBid i1 b1.load_id b2).load_id =
      some (assignTo b1.load_id b1.trucker_id l) := by
    rw [hfl,
      lookupLoad_mk_map _ _ _ _ (fun x => assignTo_id b1.load_id b1.trucker_id x) l.id,
      hlook']
    rfl
  have hauth1 : p.id = (assignTo b1.load_id b1.trucker_id l).shipper_id ∨
      p.role = Role.admin := by
    rw [assignTo_shipper_id]; exact hauth
  have h2 := accept_bid_eq_ok hb2' hload1 hauth1
  refine ⟨_, _, h1, h2, ?_, ?_⟩
  · -- the load after both accepts
    have hft : (resolveBid i1 b1.load_id b2).trucker_id = b2.trucker_id :=
      resolveBid_trucker_id i1 b1.load_id b2
    rw [hfl, hft,
      lookupLoad_mk_map _ _ _ _ (fun x => assignTo_id l.id b2.trucker_id x) l.id]
    rw [show (db.loads.map (assignTo b1.load_id b1.trucker_id)).find?
        (fun L => decide (L.id = l.id)) =
        some (assignTo b1.load_id b1.trucker_id l) from by
      rw [find?_load_map (fun x => assignTo_id b1.load_id b1.trucker_id x),
        hlook']
      rfl]
    rw [Option.map_some']
    rw [assignTo_of_eq hl1.symm]
    have hid1 : ({ l with status := LoadStatus.assigned,
                          trucker_id := some b1.trucker_id } : Load).id = l.id := rfl
    rw [assignTo_of_eq hid1]
  · -- the bids after both accepts
    intro x hx hxl
    obtain ⟨z, hz, hzx⟩ := List.mem_map.mp hx
    obtain ⟨y, hy, hyz⟩ := List.mem_map.mp hz
    subst hzx
    subst hyz
    simp only [resolveBid_load_id] at hxl
    simp only [resolveBid_id]
    by_cases hcase : y.id = i2
    · rw [if_pos hcase]
      have hyne1 : y.id ≠ i1 := by rw [hcase]; exact fun hh => hne hh.symm
      have hfy : resolveBid i1 b1.load_id y =
          { y with status := BidStatus.rejected } :=
        resolveBid_of_load hyne1 (by rw [hxl, ← hl1])
      rw [hfy]
      rw [resolveBid_of_id
        (show ({ y with status := BidStatus.rejected } : Bid).id = i2 from hcase)]
    · rw [if_neg hcase]
      have hid2 : (resolveBid i1 b1.load_id y).id ≠ i2 := by
        rw [resolveBid_id]; exact hcase
      have hld2 : (resolveBid i1 b1.load_id y).load_id =
          (resolveBid i1 b1.load_id b2).load_id := by
        rw [resolveBid_load_id, resolveBid_load_id, hxl, hl2]
      rw [resolveBid_of_load hid2 hld2]

/-- Witness for the amended claim C9, on the open load of dbOpen2. -/
theorem C9_serialized_accepts_last_wins_witness :
    ∃ db1 db2, accept_bid dbOpen2 1 shipper10 = Except.ok db1 ∧
      accept_bid db1 2 shipper10 = Except.ok db2 ∧
      lookupLoad db2 exOpenLoad.id =
        some { exOpenLoad with status := LoadStatus.assigned,
                               trucker_id := some exBidP2.trucker_id } ∧
      (∀ x ∈ db2.bids, x.load_id = exOpenLoad.id →
        x.status = if x.id = 2 then BidStatus.accepted
                   else BidStatus.rejected) :=
  C9_serialized_accepts_last_wins dbOpen2 1 2 shipper10 exBidP1 exBidP2
    exOpenLoad rfl rfl (by decide) rfl rfl rfl rfl rfl rfl (Or.inl rfl)

end LoadBoard
